import Mathlib

/-!
Shallow embedding of the git-sherpa repository hygiene checker
(src/check.rs, src/fix.rs, src/hooks.rs, src/sensitive.rs, src/git.rs),
together with theorems settling the specification claims.

The Repository Facade (src/git.rs) is modelled as a `GitState` record of
query outcomes; each facade call made by the engine is additionally
recorded in a trace so that ordering claims can be stated. Machine
strings are Lean `String`/`List Char`; the Rust `regex` engine is
modelled faithfully for the one concrete regex the code builds
(`commit_regex_for`), and abstractly (as a caller-supplied compiler
returning an optional matcher) for the configured branch pattern, whose
concrete semantics no claim depends on.
-/

namespace GitSherpa

/-! ### Conventional commit subject matcher (src/check.rs, commit_regex_for)

The Rust code compiles
`^(feat|fix|chore|docs|refactor|test|perf|ci|build)(\([a-z0-9-]+\))?: .+`
and calls `is_match` on each commit subject. `^` anchors at the start of
the string, there is no end anchor, and `.` matches any character except
a newline, so the subject is valid iff it starts with a type from the
closed set, an optional parenthesized scope of `[a-z0-9-]+`, the two
characters ": ", and then at least one non-newline character. -/

/-- Character class `[a-z0-9-]` of the scope part of the regex. -/
def isScopeChar (c : Char) : Bool :=
  (decide ('a' ≤ c) && decide (c ≤ 'z')) || (decide ('0' ≤ c) && decide (c ≤ '9')) || c == '-'

/-- The tail `: .+` of the regex: ": " then at least one non-newline character. -/
def checkRest : List Char → Bool
  | a :: b :: c :: _ => a == ':' && b == ' ' && c != '\n'
  | _ => false

/-- The part of the regex after the commit type:
`(\([a-z0-9-]+\))?: .+` — either directly ": " and a non-newline
character, or a parenthesized non-empty scope first. `takeWhile` is the
maximal munch of the scope class; since `)` is not in the class this is
exactly the regex's behaviour. -/
def checkAfterType (cs : List Char) : Bool :=
  checkRest cs ||
  (match cs with
   | a :: rest =>
       a == '(' &&
       (!(rest.takeWhile isScopeChar).isEmpty &&
        (match rest.dropWhile isScopeChar with
         | b :: rest2 => b == ')' && checkRest rest2
         | [] => false))
   | [] => false)

/-- The closed set of commit types of the regex alternation. -/
def conventionalTypesL : List (List Char) :=
  [['f','e','a','t'], ['f','i','x'], ['c','h','o','r','e'], ['d','o','c','s'],
   ['r','e','f','a','c','t','o','r'], ['t','e','s','t'], ['p','e','r','f'],
   ['c','i'], ['b','u','i','l','d']]

/-- `is_match` of the conventional-commit regex on a character list. -/
def isConventionalL (s : List Char) : Bool :=
  conventionalTypesL.any (fun t => t.isPrefixOf s && checkAfterType (s.drop t.length))

/-- `is_match` of the conventional-commit regex on a commit subject. -/
def isConventional (s : String) : Bool :=
  isConventionalL s.data

/-- The optional scope as the spec words it: a parenthesized non-empty
word over `[a-z0-9-]`. -/
def SpecScope (mid : List Char) : Prop :=
  ∃ w, w ≠ [] ∧ (∀ x ∈ w, isScopeChar x = true) ∧ mid = '(' :: (w ++ [')'])

/-- The validity grammar exactly as the claim states it: a type from the
closed set, an optional parenthesized scope, the two characters ": ",
then a non-empty remainder. -/
def SpecConventional (s : List Char) : Prop :=
  ∃ t ∈ conventionalTypesL, ∃ mid r,
    (mid = [] ∨ SpecScope mid) ∧ r ≠ [] ∧ s = t ++ mid ++ ':' :: ' ' :: r

/-- The amended validity grammar: as SpecConventional, but the remainder
must begin with a non-newline character (the regex tail is `: .+` with
no end anchor, and `.` does not match a newline). -/
def AmendedConventional (s : List Char) : Prop :=
  ∃ t ∈ conventionalTypesL, ∃ mid c r,
    (mid = [] ∨ SpecScope mid) ∧ c ≠ '\n' ∧ s = t ++ mid ++ ':' :: ' ' :: c :: r

/-- The part of the amended grammar after the commit type. -/
def AfterTypeSpec (cs : List Char) : Prop :=
  (∃ c r, c ≠ '\n' ∧ cs = ':' :: ' ' :: c :: r) ∨
  (∃ w c r, w ≠ [] ∧ (∀ x ∈ w, isScopeChar x = true) ∧ c ≠ '\n' ∧
    cs = '(' :: (w ++ ')' :: ':' :: ' ' :: c :: r))

/-! ### Glob matching (the glob_match crate used by src/sensitive.rs)

The matcher called by `check_sensitive_files` is the external
`glob_match` crate. Modelled from the spec: `*` matches any (possibly
empty) run of characters within one path segment, `**` matches across
segment boundaries (a leading `**/` may match zero whole segments), `?`
matches one non-separator character, every other pattern character
matches itself. Bracket classes and brace alternation are not modelled:
no pattern appearing in this repository uses them. -/

/-- Suffixes of the path that start immediately after some `/`
(the places where a `**/` prefix may resume matching). -/
def slashSuffixes : List Char → List (List Char)
  | [] => []
  | c :: cs => (if c = '/' then [cs] else []) ++ slashSuffixes cs

/-- Suffixes of the path obtained by dropping zero or more
non-separator characters (the places where a `*` may stop). -/
def segSuffixes : List Char → List (List Char)
  | [] => [[]]
  | c :: cs => (c :: cs) :: (if c = '/' then [] else segSuffixes cs)

/-- Glob matching of a pattern against a path, both as character lists. -/
def globMatch : List Char → List Char → Bool
  | [], cs => cs.isEmpty
  | '*' :: '*' :: '/' :: ps, cs =>
      (cs :: slashSuffixes cs).any (fun t => globMatch ps t)
  | '*' :: '*' :: ps, cs =>
      cs.tails.any (fun t => globMatch ps t)
  | '*' :: ps, cs =>
      (segSuffixes cs).any (fun t => globMatch ps t)
  | '?' :: ps, cs =>
      (match cs with
       | c :: cs2 => c != '/' && globMatch ps cs2
       | [] => false)
  | p :: ps, cs =>
      (match cs with
       | c :: cs2 => p == c && globMatch ps cs2
       | [] => false)

/-! ### Sensitive file matcher (src/sensitive.rs) -/

/-- DEFAULT_PATTERNS of src/sensitive.rs. -/
def default_patterns : List String :=
  [".env", ".env.*", "*.pem", "*.key", "**/id_rsa", "**/id_rsa.pub",
   "**/credentials.json", "**/*.p12", "**/*.pfx"]

/-- check_sensitive_files of src/sensitive.rs: keep the staged paths
matching at least one pattern. -/
def check_sensitive_files (staged : List String) (patterns : List String) : List String :=
  staged.filter (fun file => patterns.any (fun pat => globMatch pat.data file.data))

/-! ### Data model (src/check.rs, src/config.rs) -/

/-- BranchReport of src/check.rs. -/
structure BranchReport where
  name : String
  pattern : String
  valid : Bool
deriving DecidableEq, Repr

/-- CommitReport of src/check.rs. -/
structure CommitReport where
  hash : String
  message : String
  valid : Bool
deriving DecidableEq, Repr

/-- RepoReport of src/check.rs. -/
structure RepoReport where
  worktree_clean : Bool
  upstream_set : Bool
deriving DecidableEq, Repr

/-- SensitiveReport of src/check.rs. -/
structure SensitiveReport where
  files : List String
deriving DecidableEq, Repr

/-- Summary of src/check.rs. -/
structure Summary where
  total_commits : Nat
  invalid_commits : Nat
  branch_valid : Bool
  worktree_clean : Bool
  upstream_set : Bool
  sensitive_files : Nat
deriving DecidableEq, Repr

/-- Report of src/check.rs. -/
structure Report where
  branch : BranchReport
  commits : List CommitReport
  repo : RepoReport
  sensitive : SensitiveReport
  summary : Summary
deriving DecidableEq, Repr

/-- The policy configuration fields consumed by the engine
(src/config.rs, flattened). -/
structure Config where
  branches_pattern : String
  commits_convention : String
  require_clean_worktree : Bool
  require_upstream : Bool
  sensitive_patterns : List String
  protected_branches : List String
deriving DecidableEq, Repr

/-- The error kinds of the design (anyhow errors in the Rust code,
classified as in the spec's error taxonomy). -/
inductive AppError where
  | configError (msg : String)
  | repositoryError
  | ioError
deriving DecidableEq, Repr

/-! ### Repository Facade (src/git.rs)

Each facade query is a blocking call that either fails (RepositoryError)
or returns a value; a `GitState` fixes the outcome of every query for
one invocation. The engine additionally records which queries it
actually executed, in order. -/

/-- Outcomes of the facade queries of src/git.rs for one invocation. -/
structure GitState where
  current_branch : Except Unit String
  worktree_clean : Except Unit Bool
  has_upstream : Except Unit Bool
  recent_commits : Nat → Except Unit (List (String × String))
  staged_files : Except Unit (List String)

/-- Tags identifying the facade queries, for the execution trace. -/
inductive GitQuery where
  | branchQ
  | worktreeQ
  | upstreamQ
  | logQ
  | stagedQ
deriving DecidableEq, Repr

/-! ### Validation Engine (src/check.rs) -/

/-- commit_regex_for of src/check.rs: the only recognized convention is
"conventional"; any other name is a ConfigError. -/
def commit_regex_for (convention : String) : Except AppError (String → Bool) :=
  if convention = "conventional" then Except.ok isConventional
  else Except.error (AppError.configError ("Unsupported commit convention: " ++ convention))

/-- `git::staged_files().unwrap_or_default()` of src/check.rs line 101:
a failed staged-files query is replaced by the empty list. -/
def unwrap_or_default (v : Except Unit (List String)) : List String :=
  match v with
  | Except.ok l => l
  | Except.error _ => []

/-- A requirement-gated facade query (src/check.rs lines 84-85): when
the requirement flag is off the query is not executed and the finding is
unconditionally satisfied. Returns the outcome and the queries run. -/
def gatedQuery (required : Bool) (q : GitQuery) (r : Except Unit Bool) :
    Except Unit Bool × List GitQuery :=
  if required then (r, [q]) else (Except.ok true, [])

/-- build_report of src/check.rs, with the branch-pattern regex engine
abstracted as `compileRegex` (Regex::new, returning none on an invalid
pattern). The second component is the trace of facade queries executed,
in order. -/
def build_report (compileRegex : String → Option (String → Bool)) (config : Config)
    (commit_limit : Nat) (g : GitState) : Except AppError Report × List GitQuery :=
  match g.current_branch with
  | Except.error _ => (Except.error AppError.repositoryError, [GitQuery.branchQ])
  | Except.ok branch_name =>
    match compileRegex config.branches_pattern with
    | none =>
        (Except.error (AppError.configError ("invalid branch regex " ++ config.branches_pattern)),
         [GitQuery.branchQ])
    | some branch_regex =>
      let branch_valid := branch_regex branch_name
      let wt := gatedQuery config.require_clean_worktree GitQuery.worktreeQ g.worktree_clean
      match wt.1 with
      | Except.error _ => (Except.error AppError.repositoryError, GitQuery.branchQ :: wt.2)
      | Except.ok worktree_clean =>
        let up := gatedQuery config.require_upstream GitQuery.upstreamQ g.has_upstream
        match up.1 with
        | Except.error _ =>
            (Except.error AppError.repositoryError, GitQuery.branchQ :: wt.2 ++ up.2)
        | Except.ok upstream_set =>
          match commit_regex_for config.commits_convention with
          | Except.error e => (Except.error e, GitQuery.branchQ :: wt.2 ++ up.2)
          | Except.ok commit_regex =>
            match g.recent_commits commit_limit with
            | Except.error _ =>
                (Except.error AppError.repositoryError,
                 GitQuery.branchQ :: wt.2 ++ up.2 ++ [GitQuery.logQ])
            | Except.ok commits =>
              let commit_reports := commits.map (fun hm =>
                { hash := hm.1, message := hm.2, valid := commit_regex hm.2 : CommitReport })
              let invalid_commits := (commit_reports.filter (fun c => !c.valid)).length
              let total_commits := commit_reports.length
              let staged := unwrap_or_default g.staged_files
              let sensitive_files := check_sensitive_files staged config.sensitive_patterns
              (Except.ok
                { branch :=
                    { name := branch_name, pattern := config.branches_pattern,
                      valid := branch_valid },
                  commits := commit_reports,
                  repo := { worktree_clean := worktree_clean, upstream_set := upstream_set },
                  sensitive := { files := sensitive_files },
                  summary :=
                    { total_commits := total_commits, invalid_commits := invalid_commits,
                      branch_valid := branch_valid, worktree_clean := worktree_clean,
                      upstream_set := upstream_set,
                      sensitive_files := sensitive_files.length } },
               GitQuery.branchQ :: wt.2 ++ up.2 ++ [GitQuery.logQ, GitQuery.stagedQ])

/-- The overall-violation predicate computed by check (src/check.rs
lines 65-69) over the summary of a report. -/
def has_violations (r : Report) : Bool :=
  !r.summary.branch_valid || decide (0 < r.summary.invalid_commits) ||
  !r.summary.worktree_clean || !r.summary.upstream_set ||
  decide (0 < r.summary.sensitive_files)

/-- check of src/check.rs: builds the report and exits with status 1
when the report has violations, else 0 (`Ok(())` followed by the normal
process exit). Errors of report construction are propagated. -/
def check (compileRegex : String → Option (String → Bool)) (config : Config)
    (commit_limit : Nat) (g : GitState) : Except AppError Nat × List GitQuery :=
  let b := build_report compileRegex config commit_limit g
  (match b.1 with
   | Except.error e => Except.error e
   | Except.ok r => Except.ok (if has_violations r then 1 else 0),
   b.2)

/-! ### Fix Advisor (src/fix.rs)

The advisor's observable behaviour is the ordered list of remediation
messages it prints, the number of times it invokes the facade's
set-upstream action, and whether it returns an error. -/

/-- The remediation outputs of src/fix.rs, one constructor per print
site (the set-upstream action path has its "Setting upstream..."
announcement and its success message as separate outputs). -/
inductive FixItem where
  | branchRename (name : String) (pattern : String)
  | worktreeCleanup
  | settingUpstream
  | upstreamSetOk
  | upstreamManual (branch : String)
  | rewordCommit (hash : String)
  | unstageFile (file : String)
  | allGood
deriving DecidableEq, Repr

instance exceptDecEq {ε α : Type} [DecidableEq ε] [DecidableEq α] : DecidableEq (Except ε α) :=
  fun x y =>
    match x, y with
    | Except.ok a, Except.ok b => decidable_of_iff (a = b) (by simp)
    | Except.error a, Except.error b => decidable_of_iff (a = b) (by simp)
    | Except.ok _, Except.error _ => isFalse (by simp)
    | Except.error _, Except.ok _ => isFalse (by simp)

/-- The observable outcome of one run of fix. -/
structure FixOutcome where
  items : List FixItem
  result : Except AppError Unit
  upstream_invocations : Nat
deriving DecidableEq, Repr

/-- The has_fixes flag of src/fix.rs: true iff any finding of the report
is violated. -/
def has_fixes (r : Report) : Bool :=
  !r.branch.valid || !r.repo.worktree_clean || !r.repo.upstream_set ||
  r.commits.any (fun c => !c.valid) || !r.sensitive.files.isEmpty

/-- The per-invalid-commit and per-sensitive-file instructions emitted
after the upstream block of src/fix.rs, in report order. -/
def fix_tail (r : Report) : List FixItem :=
  (r.commits.filter (fun c => !c.valid)).map (fun c => FixItem.rewordCommit c.hash) ++
  r.sensitive.files.map (fun f => FixItem.unstageFile f)

/-- The common tail of fix: the commit and sensitive instructions, then
the positive confirmation when nothing was violated. -/
def fix_finish (r : Report) (acc : List FixItem) (inv : Nat) : FixOutcome :=
  { items := acc ++ fix_tail r ++ (if has_fixes r then [] else [FixItem.allGood]),
    result := Except.ok (), upstream_invocations := inv }

/-- fix of src/fix.rs, over an already-built report. `su` is the outcome
of the facade's push_set_upstream action (src/git.rs); the `?` on that
call makes a failed action abort the whole command. -/
def fix (r : Report) (apply : Bool) (su : Except Unit Unit) : FixOutcome :=
  let head :=
    (if r.branch.valid then [] else [FixItem.branchRename r.branch.name r.branch.pattern]) ++
    (if r.repo.worktree_clean then [] else [FixItem.worktreeCleanup])
  if r.repo.upstream_set then fix_finish r head 0
  else if apply then
    match su with
    | Except.error _ =>
        { items := head ++ [FixItem.settingUpstream],
          result := Except.error AppError.repositoryError, upstream_invocations := 1 }
    | Except.ok _ =>
        fix_finish r (head ++ [FixItem.settingUpstream, FixItem.upstreamSetOk]) 1
  else fix_finish r (head ++ [FixItem.upstreamManual r.branch.name]) 0

/-! ### Hook Policy Compiler (src/hooks.rs)

The filesystem visible to the installer is the pair of hook files
(`pre-commit`, `pre-push`) in the hooks directory, each either absent or
present with some content. Write, chmod and remove are the fallible
filesystem actions; their outcomes for one invocation are supplied as
parameters. The `hooks_dir`/`create_dir_all` preamble, which precedes
both files and whose failure aborts before either is considered, is
assumed to succeed. -/

/-- HOOK_MARKER of src/hooks.rs: the ownership marker line. -/
def HOOK_MARKER : String := "# git-sherpa"

/-- hook_content of src/hooks.rs (the pre-commit script). -/
def hook_content : String :=
  "#!/bin/sh\n" ++ HOOK_MARKER ++ "\nexec git-sherpa check\n"

/-- pre_push_hook_content of src/hooks.rs. -/
def pre_push_hook_content (protected_branches : List String) : String :=
  "#!/bin/sh\n" ++ HOOK_MARKER ++
  "\n\n# Block force push\nfor arg in \"$@\"; do\n    case \"$arg\" in\n        --force|-f|--force-with-lease)\n            echo \"git-sherpa: force push is blocked.\"\n            exit 1\n            ;;\n    esac\ndone\n\n# Block push to protected branches\ncurrent_branch=$(git rev-parse --abbrev-ref HEAD)\ncase \"$current_branch\" in\n    " ++
  String.intercalate "|" protected_branches ++
  ")\n        echo \"git-sherpa: direct push to \x27$current_branch\x27 is blocked. Use a pull request.\"\n        exit 1\n        ;;\nesac\n\nexec git-sherpa check\n"

/-- Substring test on character lists (Rust str::contains). -/
def strContainsL (s pat : List Char) : Bool :=
  s.tails.any (fun t => pat.isPrefixOf t)

/-- Substring test on strings (Rust str::contains). -/
def strContains (s pat : String) : Bool :=
  strContainsL s.data pat.data

/-- The two hook files managed by the compiler. -/
inductive HookName where
  | preCommit
  | prePush
deriving DecidableEq, Repr

/-- The hooks directory as seen by install/uninstall: the content of
each hook file, or none when absent. -/
structure HookFs where
  preCommit : Option String
  prePush : Option String
deriving DecidableEq, Repr

/-- Content of one hook file. -/
def fsGet (fs : HookFs) : HookName → Option String
  | HookName.preCommit => fs.preCommit
  | HookName.prePush => fs.prePush

/-- Outcomes of the fallible filesystem actions (fs::write and
fs::set_permissions) for one invocation of install. -/
structure IoOutcome where
  writeOk : HookName → Bool
  chmodOk : HookName → Bool

/-- What happened to one hook file during install. -/
inductive FileAttempt where
  | skipped
  | writeFailed
  | chmodFailed
  | installedOk
deriving DecidableEq, Repr

/-- The per-file body of the install loop of src/hooks.rs lines 59-77:
skip-and-warn when the file exists and force is off, otherwise write the
content and mark it executable. -/
def install_one (force : Bool) (content : String) (oc : IoOutcome) (n : HookName)
    (existing : Option String) : Option String × FileAttempt :=
  if existing.isSome && !force then (existing, FileAttempt.skipped)
  else if !(oc.writeOk n) then (existing, FileAttempt.writeFailed)
  else if !(oc.chmodOk n) then (some content, FileAttempt.chmodFailed)
  else (some content, FileAttempt.installedOk)

/-- install_with_config of src/hooks.rs: processes pre-commit, then
pre-push. The `?` on write and chmod makes a failure on pre-commit
return before pre-push is considered; a skip uses `continue` and does
not. The middle component lists the files processed, in order, with
their outcomes. -/
def install_with_config (force : Bool) (protected_branches : List String) (fs : HookFs)
    (oc : IoOutcome) : HookFs × List (HookName × FileAttempt) × Except AppError Unit :=
  let s1 := install_one force hook_content oc HookName.preCommit fs.preCommit
  let fs1 : HookFs := { fs with preCommit := s1.1 }
  match s1.2 with
  | FileAttempt.writeFailed =>
      (fs1, [(HookName.preCommit, FileAttempt.writeFailed)], Except.error AppError.ioError)
  | FileAttempt.chmodFailed =>
      (fs1, [(HookName.preCommit, FileAttempt.chmodFailed)], Except.error AppError.ioError)
  | a1 =>
    let s2 := install_one force (pre_push_hook_content protected_branches) oc
      HookName.prePush fs.prePush
    let fs2 : HookFs := { fs1 with prePush := s2.1 }
    let res : Except AppError Unit :=
      match s2.2 with
      | FileAttempt.writeFailed => Except.error AppError.ioError
      | FileAttempt.chmodFailed => Except.error AppError.ioError
      | _ => Except.ok ()
    (fs2, [(HookName.preCommit, a1), (HookName.prePush, s2.2)], res)

/-- The outputs of uninstall: a removal report or a not-ours warning. -/
inductive UninstallEvent where
  | removed (n : HookName)
  | warnedForeign (n : HookName)
deriving DecidableEq, Repr

/-- The hook file an uninstall event is about. -/
def eventHook : UninstallEvent → HookName
  | UninstallEvent.removed n => n
  | UninstallEvent.warnedForeign n => n

/-- The per-file body of the uninstall loop of src/hooks.rs lines
86-102: absent files are skipped silently, files lacking the ownership
marker are left untouched with a warning, marked files are removed (a
failing remove aborts via `?`, signalled by the final `false`). -/
def uninstall_one (removeOk : Bool) (n : HookName) (content : Option String) :
    Option String × List UninstallEvent × Bool :=
  match content with
  | none => (none, [], true)
  | some c =>
    if strContains c HOOK_MARKER then
      if removeOk then (none, [UninstallEvent.removed n], true)
      else (some c, [], false)
    else (some c, [UninstallEvent.warnedForeign n], true)

/-- uninstall of src/hooks.rs: processes pre-commit, then pre-push,
aborting when a remove fails. -/
def uninstall (fs : HookFs) (removeOk : HookName → Bool) :
    HookFs × List UninstallEvent × Except AppError Unit :=
  let s1 := uninstall_one (removeOk HookName.preCommit) HookName.preCommit fs.preCommit
  let fs1 : HookFs := { fs with preCommit := s1.1 }
  if s1.2.2 then
    let s2 := uninstall_one (removeOk HookName.prePush) HookName.prePush fs.prePush
    let fs2 : HookFs := { fs1 with prePush := s2.1 }
    (fs2, s1.2.1 ++ s2.2.1, if s2.2.2 then Except.ok () else Except.error AppError.ioError)
  else (fs1, s1.2.1, Except.error AppError.ioError)

/-! ### Concrete fixtures used to instantiate the theorems -/

/-- A regex engine that compiles every pattern to an accept-all matcher. -/
def compileTrue : String → Option (String → Bool) :=
  fun _ => some (fun _ => true)

/-- The default configuration of src/config.rs. -/
def cfgGood : Config :=
  { branches_pattern := "^(feat|fix|chore|docs|refactor)/[a-z0-9-]+$",
    commits_convention := "conventional",
    require_clean_worktree := true, require_upstream := true,
    sensitive_patterns := default_patterns,
    protected_branches := ["main", "master"] }

/-- The default configuration with an unrecognized commit convention. -/
def cfgBad : Config :=
  { cfgGood with commits_convention := "custom" }

/-- A healthy repository: every query succeeds, one conventional commit,
clean worktree, upstream set, nothing staged. -/
def gGood : GitState :=
  { current_branch := Except.ok "feat/login",
    worktree_clean := Except.ok true,
    has_upstream := Except.ok true,
    recent_commits := fun _ => Except.ok [("abcd1234deadbeef", "feat: add login")],
    staged_files := Except.ok [] }

/-- A report whose only violations are a missing upstream, one invalid
commit and one staged sensitive file. -/
def rUp : Report :=
  { branch := { name := "feat/login", pattern := "^feat/.*$", valid := true },
    commits := [{ hash := "abcd1234deadbeef", message := "bad subject", valid := false }],
    repo := { worktree_clean := true, upstream_set := false },
    sensitive := { files := ["config.env"] },
    summary := { total_commits := 1, invalid_commits := 1, branch_valid := true,
                 worktree_clean := true, upstream_set := false, sensitive_files := 1 } }

/-- A fully clean report: nothing violated. -/
def rClean : Report :=
  { branch := { name := "feat/login", pattern := "^feat/.*$", valid := true },
    commits := [{ hash := "abcd1234deadbeef", message := "feat: add login", valid := true }],
    repo := { worktree_clean := true, upstream_set := true },
    sensitive := { files := [] },
    summary := { total_commits := 1, invalid_commits := 0, branch_valid := true,
                 worktree_clean := true, upstream_set := true, sensitive_files := 0 } }

/-- The report build_report produces for cfgGood/gGood under the
accept-all branch regex engine. -/
def rGood : Report :=
  { branch := { name := "feat/login",
                pattern := "^(feat|fix|chore|docs|refactor)/[a-z0-9-]+$", valid := true },
    commits := [{ hash := "abcd1234deadbeef", message := "feat: add login", valid := true }],
    repo := { worktree_clean := true, upstream_set := true },
    sensitive := { files := [] },
    summary := { total_commits := 1, invalid_commits := 0, branch_valid := true,
                 worktree_clean := true, upstream_set := true, sensitive_files := 0 } }

/-- A hook script written by this tool (contains the ownership marker). -/
def markedHook : String :=
  "#!/bin/sh\n# git-sherpa\nexec git-sherpa check\n"

/-- A hook script written by someone else (no ownership marker). -/
def foreignHook : String :=
  "#!/bin/sh\nmy own hook\n"

/-- A hooks directory holding a marked pre-commit hook and a foreign
pre-push hook. -/
def fsMixed : HookFs :=
  { preCommit := some markedHook, prePush := some foreignHook }

/-! ### Shared lemmas about build_report -/

/-- Inversion of a successful build_report: the summary fields are the
stated pure functions of the findings, and the sensitive finding is the
matcher applied to the (defaulted) staged paths. -/
theorem build_report_ok {compileRegex : String → Option (String → Bool)} {config : Config}
    {commit_limit : Nat} {g : GitState} {r : Report}
    (h : (build_report compileRegex config commit_limit g).1 = Except.ok r) :
    r.summary.total_commits = r.commits.length ∧
    r.summary.invalid_commits = (r.commits.filter (fun c => !c.valid)).length ∧
    r.summary.branch_valid = r.branch.valid ∧
    r.summary.worktree_clean = r.repo.worktree_clean ∧
    r.summary.upstream_set = r.repo.upstream_set ∧
    r.summary.sensitive_files = r.sensitive.files.length ∧
    r.sensitive.files =
      check_sensitive_files (unwrap_or_default g.staged_files) config.sensitive_patterns := by
  unfold build_report at h
  cases hcb : g.current_branch with
  | error e => simp [hcb] at h
  | ok bn =>
    cases hre : compileRegex config.branches_pattern with
    | none => simp [hcb, hre] at h
    | some re =>
      cases hwt : (gatedQuery config.require_clean_worktree GitQuery.worktreeQ g.worktree_clean).1 with
      | error e => simp [hcb, hre, hwt] at h
      | ok wt =>
        cases hup : (gatedQuery config.require_upstream GitQuery.upstreamQ g.has_upstream).1 with
        | error e => simp [hcb, hre, hwt, hup] at h
        | ok up =>
          cases hcr : commit_regex_for config.commits_convention with
          | error e => simp [hcb, hre, hwt, hup, hcr] at h
          | ok cre =>
            cases hrc : g.recent_commits commit_limit with
            | error e => simp [hcb, hre, hwt, hup, hcr, hrc] at h
            | ok commits =>
              simp only [hcb, hre, hwt, hup, hcr, hrc, Except.ok.injEq] at h
              subst h
              exact ⟨rfl, rfl, rfl, rfl, rfl, rfl, rfl⟩

/-- C4: For every Report produced by build_report, the Summary is a pure
recomputation of the other findings: invalid_commits counts the invalid
commit findings, total_commits is the length of the commit list,
branch_valid is the branch finding's flag, worktree_clean and
upstream_set are the repository-state finding's flags, and
sensitive_files is the length of the sensitive finding's file list. -/
theorem c4_summary_recomputation {compileRegex : String → Option (String → Bool)}
    {config : Config} {commit_limit : Nat} {g : GitState} {r : Report}
    (h : (build_report compileRegex config commit_limit g).1 = Except.ok r) :
    r.summary.invalid_commits = (r.commits.filter (fun c => !c.valid)).length ∧
    r.summary.total_commits = r.commits.length ∧
    r.summary.branch_valid = r.branch.valid ∧
    r.summary.worktree_clean = r.repo.worktree_clean ∧
    r.summary.upstream_set = r.repo.upstream_set ∧
    r.summary.sensitive_files = r.sensitive.files.length := by
  obtain ⟨h1, h2, h3, h4, h5, h6, _⟩ := build_report_ok h
  exact ⟨h2, h1, h3, h4, h5, h6⟩

/-- C4 instantiated on the concrete healthy repository. -/
theorem c4_witness :
    (build_report compileTrue cfgGood 1 gGood).1 = Except.ok rGood ∧
    (rGood.summary.invalid_commits = (rGood.commits.filter (fun c => !c.valid)).length ∧
     rGood.summary.total_commits = rGood.commits.length ∧
     rGood.summary.branch_valid = rGood.branch.valid ∧
     rGood.summary.worktree_clean = rGood.repo.worktree_clean ∧
     rGood.summary.upstream_set = rGood.repo.upstream_set ∧
     rGood.summary.sensitive_files = rGood.sensitive.files.length) := by
  have hb : (build_report compileTrue cfgGood 1 gGood).1 = Except.ok rGood := by decide
  exact ⟨hb, c4_summary_recomputation hb⟩

/-- C1: for every report produced by build_report, check exits 1 iff the
branch finding is invalid, or some commit finding is invalid, or the
worktree-clean finding is false, or the upstream-present finding is
false, or the sensitive finding is non-empty; otherwise it exits 0. -/
theorem c1_check_exit_code {compileRegex : String → Option (String → Bool)} {config : Config}
    {commit_limit : Nat} {g : GitState} {r : Report}
    (h : (build_report compileRegex config commit_limit g).1 = Except.ok r) :
    ((check compileRegex config commit_limit g).1 = Except.ok 1 ↔
      (r.branch.valid = false ∨ (∃ c ∈ r.commits, c.valid = false) ∨
       r.repo.worktree_clean = false ∨ r.repo.upstream_set = false ∨
       r.sensitive.files ≠ [])) ∧
    ((check compileRegex config commit_limit g).1 = Except.ok 0 ↔
      ¬(r.branch.valid = false ∨ (∃ c ∈ r.commits, c.valid = false) ∨
        r.repo.worktree_clean = false ∨ r.repo.upstream_set = false ∨
        r.sensitive.files ≠ [])) := by
  obtain ⟨_, h2, h3, h4, h5, h6, _⟩ := build_report_ok h
  have hc : (check compileRegex config commit_limit g).1 =
      Except.ok (if has_violations r then 1 else 0) := by
    unfold check
    simp only [h]
  have hv : has_violations r = true ↔
      (r.branch.valid = false ∨ (∃ c ∈ r.commits, c.valid = false) ∨
       r.repo.worktree_clean = false ∨ r.repo.upstream_set = false ∨
       r.sensitive.files ≠ []) := by
    unfold has_violations
    rw [h2, h3, h4, h5, h6]
    simp [List.length_pos, List.filter_eq_nil_iff, not_forall, or_assoc]
  by_cases hb : has_violations r = true
  · refine ⟨iff_of_true (by rw [hc, hb]; rfl) (hv.mp hb),
      iff_of_false (by rw [hc, hb]; simp) (fun hD => hD (hv.mp hb))⟩
  · have hb' : has_violations r = false := by
      revert hb
      cases has_violations r <;> simp
    refine ⟨iff_of_false (by rw [hc, hb']; simp) (fun hD => hb (hv.mpr hD)),
      iff_of_true (by rw [hc, hb']; rfl) (fun hD => hb (hv.mpr hD))⟩

/-- C1 instantiated on the concrete healthy repository: no finding is
violated and check exits 0. -/
theorem c1_witness : (check compileTrue cfgGood 1 gGood).1 = Except.ok 0 := by
  have hb : (build_report compileTrue cfgGood 1 gGood).1 = Except.ok rGood := by decide
  exact (c1_check_exit_code hb).2.mpr (by decide)

/-- build_report only depends on the staged-files query outcome through
`unwrap_or_default`: two repository states agreeing on everything else
and on the defaulted staged list produce identical results. -/
theorem build_report_ext {compileRegex : String → Option (String → Bool)} {config : Config}
    {commit_limit : Nat} {g₁ g₂ : GitState}
    (h1 : g₁.current_branch = g₂.current_branch)
    (h2 : g₁.worktree_clean = g₂.worktree_clean)
    (h3 : g₁.has_upstream = g₂.has_upstream)
    (h4 : g₁.recent_commits = g₂.recent_commits)
    (h5 : unwrap_or_default g₁.staged_files = unwrap_or_default g₂.staged_files) :
    build_report compileRegex config commit_limit g₁ =
      build_report compileRegex config commit_limit g₂ := by
  unfold build_report
  rw [h1, h2, h3, h4, h5]

/-- C10: a failed staged-files query is not propagated: build_report
behaves exactly as if the query had returned the empty list, so any
report it still produces has an empty sensitive finding and
Summary.sensitive_files = 0. -/
theorem c10_staged_failure_swallowed {compileRegex : String → Option (String → Bool)}
    {config : Config} {commit_limit : Nat} {g : GitState} :
    build_report compileRegex config commit_limit { g with staged_files := Except.error () } =
      build_report compileRegex config commit_limit { g with staged_files := Except.ok [] } ∧
    ∀ r, (build_report compileRegex config commit_limit
        { g with staged_files := Except.error () }).1 = Except.ok r →
      r.sensitive.files = [] ∧ r.summary.sensitive_files = 0 := by
  constructor
  · exact build_report_ext rfl rfl rfl rfl rfl
  · intro r h
    obtain ⟨_, _, _, _, _, h6, h7⟩ := build_report_ok h
    have hf : r.sensitive.files = [] := by
      simpa [unwrap_or_default, check_sensitive_files] using h7
    exact ⟨hf, by rw [h6, hf]; rfl⟩

/-- C10 instantiated: the healthy repository with a failing staged-files
query still yields the healthy report, with no sensitive finding. -/
theorem c10_witness :
    (build_report compileTrue cfgGood 1 { gGood with staged_files := Except.error () }).1 =
      Except.ok rGood ∧
    rGood.sensitive.files = [] ∧ rGood.summary.sensitive_files = 0 := by
  have hb : (build_report compileTrue cfgGood 1
      { gGood with staged_files := Except.error () }).1 = Except.ok rGood := by decide
  exact ⟨hb, (@c10_staged_failure_swallowed compileTrue cfgGood 1 gGood).2 rGood hb⟩

/-- C5 as frozen is false: with an unrecognized convention the run does
end in a ConfigError, but the branch, worktree and upstream queries have
already executed by then (the trace of facade queries is non-empty). -/
theorem c5_counterexample :
    (build_report compileTrue cfgBad 1 gGood).1 =
      Except.error (AppError.configError "Unsupported commit convention: custom") ∧
    (build_report compileTrue cfgBad 1 gGood).2 =
      [GitQuery.branchQ, GitQuery.worktreeQ, GitQuery.upstreamQ] := by
  exact ⟨by decide, by decide⟩

/-- C5 amended: with an unrecognized convention name (and the steps
before the convention lookup succeeding), build_report fails with a
ConfigError and the commit-log and staged-files queries are never
executed; the branch query (and the worktree/upstream queries when
required) have already run. -/
theorem c5_config_error_before_log_and_staged {compileRegex : String → Option (String → Bool)}
    {config : Config} {commit_limit : Nat} {g : GitState} {bn : String} {re : String → Bool}
    (hconv : config.commits_convention ≠ "conventional")
    (hcb : g.current_branch = Except.ok bn)
    (hre : compileRegex config.branches_pattern = some re)
    (hwt : config.require_clean_worktree = true → ∃ w, g.worktree_clean = Except.ok w)
    (hup : config.require_upstream = true → ∃ u, g.has_upstream = Except.ok u) :
    (build_report compileRegex config commit_limit g).1 =
      Except.error (AppError.configError
        ("Unsupported commit convention: " ++ config.commits_convention)) ∧
    GitQuery.logQ ∉ (build_report compileRegex config commit_limit g).2 ∧
    GitQuery.stagedQ ∉ (build_report compileRegex config commit_limit g).2 := by
  have hcr : commit_regex_for config.commits_convention =
      Except.error (AppError.configError
        ("Unsupported commit convention: " ++ config.commits_convention)) := by
    unfold commit_regex_for
    rw [if_neg hconv]
  cases hw : config.require_clean_worktree with
  | false =>
    cases hu : config.require_upstream with
    | false => simp [build_report, gatedQuery, hcb, hre, hcr, hw, hu]
    | true =>
      obtain ⟨u, huu⟩ := hup hu
      simp [build_report, gatedQuery, hcb, hre, hcr, hw, hu, huu]
  | true =>
    obtain ⟨w, hww⟩ := hwt hw
    cases hu : config.require_upstream with
    | false => simp [build_report, gatedQuery, hcb, hre, hcr, hw, hu, hww]
    | true =>
      obtain ⟨u, huu⟩ := hup hu
      simp [build_report, gatedQuery, hcb, hre, hcr, hw, hu, hww, huu]

/-- C5 amended, instantiated on the concrete bad-convention run. -/
theorem c5_witness :
    (build_report compileTrue cfgBad 1 gGood).1 =
      Except.error (AppError.configError
        ("Unsupported commit convention: " ++ cfgBad.commits_convention)) ∧
    GitQuery.logQ ∉ (build_report compileTrue cfgBad 1 gGood).2 ∧
    GitQuery.stagedQ ∉ (build_report compileTrue cfgBad 1 gGood).2 :=
  c5_config_error_before_log_and_staged (by decide) rfl rfl
    (fun _ => ⟨true, rfl⟩) (fun _ => ⟨true, rfl⟩)

/-- C6 as frozen is false: on a report with a missing upstream, an
invalid commit and a staged sensitive file, fix --apply whose
set-upstream action fails invokes the action exactly once but then
aborts with the error, emitting no reword and no unstage remediation. -/
theorem c6_counterexample :
    fix rUp true (Except.error ()) =
      { items := [FixItem.settingUpstream],
        result := Except.error AppError.repositoryError, upstream_invocations := 1 } ∧
    FixItem.rewordCommit "abcd1234deadbeef" ∉ (fix rUp true (Except.error ())).items ∧
    FixItem.unstageFile "config.env" ∉ (fix rUp true (Except.error ())).items := by
  exact ⟨by decide, by decide, by decide⟩

/-- C6 amended: with apply=true on a report whose upstream-present
finding is false, fix invokes the set-upstream action exactly once; if
the action fails, fix aborts with the propagated error and the only
outputs emitted are the branch and worktree remediations (when violated)
followed by the action announcement — remediation for invalid commits
and sensitive files is not emitted; if it succeeds, fix completes
normally. -/
theorem c6_apply_upstream_once {r : Report} {su : Except Unit Unit}
    (hup : r.repo.upstream_set = false) :
    (fix r true su).upstream_invocations = 1 ∧
    (su = Except.error () →
      (fix r true su).result = Except.error AppError.repositoryError ∧
      (fix r true su).items =
        (if r.branch.valid then [] else [FixItem.branchRename r.branch.name r.branch.pattern]) ++
        (if r.repo.worktree_clean then [] else [FixItem.worktreeCleanup]) ++
        [FixItem.settingUpstream]) ∧
    (su = Except.ok () → (fix r true su).result = Except.ok ()) := by
  cases su with
  | error u =>
    cases u
    refine ⟨by simp [fix, hup], fun _ => ⟨by simp [fix, hup], ?_⟩, by simp⟩
    simp [fix, hup, List.append_assoc]
  | ok u =>
    cases u
    exact ⟨by simp [fix, hup, fix_finish], fun h => by simp at h, fun _ => by
      simp [fix, hup, fix_finish]⟩

/-- C6 amended, instantiated on the concrete failing-upstream run. -/
theorem c6_witness :
    (fix rUp true (Except.error ())).upstream_invocations = 1 ∧
    (fix rUp true (Except.error ())).result = Except.error AppError.repositoryError := by
  obtain ⟨h1, h2, _⟩ := @c6_apply_upstream_once rUp (Except.error ()) rfl
  exact ⟨h1, (h2 rfl).1⟩

/-- C9: in advisory mode the Fix Advisor emits exactly one remediation
per violated finding, in the fixed order branch rename, worktree
cleanup, upstream fix, one reword per invalid commit in report order,
one unstage per sensitive file; and when nothing is violated it emits
exactly the single positive confirmation. -/
theorem c9_fix_order {r : Report} {su : Except Unit Unit} :
    (fix r false su).items =
      (if r.branch.valid then [] else [FixItem.branchRename r.branch.name r.branch.pattern]) ++
      (if r.repo.worktree_clean then [] else [FixItem.worktreeCleanup]) ++
      (if r.repo.upstream_set then [] else [FixItem.upstreamManual r.branch.name]) ++
      (r.commits.filter (fun c => !c.valid)).map (fun c => FixItem.rewordCommit c.hash) ++
      r.sensitive.files.map (fun f => FixItem.unstageFile f) ++
      (if has_fixes r then [] else [FixItem.allGood]) ∧
    (fix r false su).result = Except.ok () ∧
    (fix r false su).upstream_invocations = 0 ∧
    (has_fixes r = false → (fix r false su).items = [FixItem.allGood]) := by
  have hbase : (fix r false su).items =
      (if r.branch.valid then [] else [FixItem.branchRename r.branch.name r.branch.pattern]) ++
      (if r.repo.worktree_clean then [] else [FixItem.worktreeCleanup]) ++
      (if r.repo.upstream_set then [] else [FixItem.upstreamManual r.branch.name]) ++
      (r.commits.filter (fun c => !c.valid)).map (fun c => FixItem.rewordCommit c.hash) ++
      r.sensitive.files.map (fun f => FixItem.unstageFile f) ++
      (if has_fixes r then [] else [FixItem.allGood]) := by
    cases hup : r.repo.upstream_set <;>
      simp [fix, fix_finish, fix_tail, hup, List.append_assoc]
  refine ⟨hbase, ?_, ?_, ?_⟩
  · cases hup : r.repo.upstream_set <;> simp [fix, fix_finish, hup]
  · cases hup : r.repo.upstream_set <;> simp [fix, fix_finish, hup]
  · intro hnf
    have hsplit : (!r.branch.valid) = false ∧ (!r.repo.worktree_clean) = false ∧
        (!r.repo.upstream_set) = false ∧ r.commits.any (fun c => !c.valid) = false ∧
        (!r.sensitive.files.isEmpty) = false := by
      simpa [has_fixes, Bool.or_eq_false_iff, and_assoc] using hnf
    obtain ⟨e1, e2, e3, e4, e5⟩ := hsplit
    replace e1 : r.branch.valid = true := by revert e1; cases r.branch.valid <;> simp
    replace e2 : r.repo.worktree_clean = true := by revert e2; cases r.repo.worktree_clean <;> simp
    replace e3 : r.repo.upstream_set = true := by revert e3; cases r.repo.upstream_set <;> simp
    replace e5 : r.sensitive.files.isEmpty = true := by
      revert e5; cases r.sensitive.files.isEmpty <;> simp
    have hsf : r.sensitive.files = [] := by
      cases hfs : r.sensitive.files with
      | nil => rfl
      | cons a t => rw [hfs] at e5; simp [List.isEmpty] at e5
    have hfilter : r.commits.filter (fun c => !c.valid) = [] := by
      rw [List.filter_eq_nil_iff]
      intro c hcmem
      rw [List.any_eq_false] at e4
      simpa using e4 c hcmem
    rw [hbase, hnf]
    simp [e1, e2, e3, hsf, hfilter]

/-- C9 instantiated on the fully clean report: the advisor emits exactly
the positive confirmation. -/
theorem c9_witness : (fix rClean false (Except.ok ())).items = [FixItem.allGood] :=
  (@c9_fix_order rClean (Except.ok ())).2.2.2 (by decide)

/-- C7 as frozen is false: when writing the pre-commit hook fails, the
install aborts with the error and the pre-push hook is never attempted
(the processed-files list contains only pre-commit). -/
theorem c7_counterexample :
    (install_with_config true ["main", "master"] { preCommit := none, prePush := none }
      { writeOk := fun _ => false, chmodOk := fun _ => true }).2.1 =
      [(HookName.preCommit, FileAttempt.writeFailed)] ∧
    (install_with_config true ["main", "master"] { preCommit := none, prePush := none }
      { writeOk := fun _ => false, chmodOk := fun _ => true }).2.2 =
      Except.error AppError.ioError := by
  exact ⟨by decide, by decide⟩

/-- C7 amended: a skip of the pre-commit hook (existing file, no force)
does not prevent the install from attempting the pre-push hook, but a
write or chmod failure on the pre-commit hook aborts the install before
the pre-push hook is attempted. -/
theorem c7_install_first_file_outcomes {force : Bool} {protected_branches : List String}
    {fs : HookFs} {oc : IoOutcome} :
    ((install_one force hook_content oc HookName.preCommit fs.preCommit).2 =
        FileAttempt.skipped →
      (install_with_config force protected_branches fs oc).2.1 =
        [(HookName.preCommit, FileAttempt.skipped),
         (HookName.prePush,
          (install_one force (pre_push_hook_content protected_branches) oc
            HookName.prePush fs.prePush).2)]) ∧
    ((install_one force hook_content oc HookName.preCommit fs.preCommit).2 =
        FileAttempt.writeFailed →
      (install_with_config force protected_branches fs oc).2.1 =
        [(HookName.preCommit, FileAttempt.writeFailed)] ∧
      (install_with_config force protected_branches fs oc).2.2 =
        Except.error AppError.ioError) ∧
    ((install_one force hook_content oc HookName.preCommit fs.preCommit).2 =
        FileAttempt.chmodFailed →
      (install_with_config force protected_branches fs oc).2.1 =
        [(HookName.preCommit, FileAttempt.chmodFailed)] ∧
      (install_with_config force protected_branches fs oc).2.2 =
        Except.error AppError.ioError) := by
  refine ⟨fun h => ?_, fun h => ?_, fun h => ?_⟩ <;>
    simp [install_with_config, h]

/-- C7 amended, instantiated: a pre-existing pre-commit hook without
force is skipped and the pre-push hook is still installed. -/
theorem c7_witness :
    (install_with_config false ["main"] { preCommit := some "existing", prePush := none }
      { writeOk := fun _ => true, chmodOk := fun _ => true }).2.1 =
      [(HookName.preCommit, FileAttempt.skipped),
       (HookName.prePush, FileAttempt.installedOk)] := by
  have h := (@c7_install_first_file_outcomes false ["main"]
    { preCommit := some "existing", prePush := none }
    { writeOk := fun _ => true, chmodOk := fun _ => true }).1 (by decide)
  exact h.trans (by decide)

/-- Every output of the per-file uninstall step concerns that file. -/
theorem uninstall_one_eventHook {rk : Bool} {n : HookName} {c : Option String} :
    ∀ e ∈ (uninstall_one rk n c).2.1, eventHook e = n := by
  intro e he
  cases c with
  | none => simp [uninstall_one] at he
  | some s =>
    simp only [uninstall_one] at he
    split_ifs at he <;> simp_all [eventHook]

/-- C8: uninstall deletes exactly the present hook files whose content
contains the ownership marker: a present file without the marker keeps
its content byte-for-byte and gets a warning, an absent file is skipped
silently with no output about it, and (when the filesystem removals
succeed) a present marked file is deleted with a removal report.
A file without the marker is preserved unconditionally. -/
theorem c8_uninstall_marker_respect {fs : HookFs} {removeOk : HookName → Bool} :
    (∀ n c, fsGet fs n = some c → strContains c HOOK_MARKER = false →
      fsGet (uninstall fs removeOk).1 n = some c) ∧
    (∀ n, fsGet fs n = none →
      fsGet (uninstall fs removeOk).1 n = none ∧
      ∀ e ∈ (uninstall fs removeOk).2.1, eventHook e ≠ n) ∧
    ((∀ m, removeOk m = true) → ∀ n c, fsGet fs n = some c →
      (strContains c HOOK_MARKER = true →
        fsGet (uninstall fs removeOk).1 n = none ∧
        UninstallEvent.removed n ∈ (uninstall fs removeOk).2.1) ∧
      (strContains c HOOK_MARKER = false →
        UninstallEvent.warnedForeign n ∈ (uninstall fs removeOk).2.1)) := by
  obtain ⟨pc, pp⟩ := fs
  refine ⟨?_, ?_, ?_⟩
  · intro n c hget hM
    cases n with
    | preCommit =>
      simp only [fsGet] at hget
      subst hget
      have hs1 : uninstall_one (removeOk HookName.preCommit) HookName.preCommit (some c) =
          (some c, [UninstallEvent.warnedForeign HookName.preCommit], true) := by
        simp [uninstall_one, hM]
      simp [uninstall, hs1, fsGet]
    | prePush =>
      simp only [fsGet] at hget
      subst hget
      have hs2 : uninstall_one (removeOk HookName.prePush) HookName.prePush (some c) =
          (some c, [UninstallEvent.warnedForeign HookName.prePush], true) := by
        simp [uninstall_one, hM]
      cases hk : (uninstall_one (removeOk HookName.preCommit) HookName.preCommit pc).2.2 with
      | false => simp [uninstall, hk, fsGet]
      | true => simp [uninstall, hk, hs2, fsGet]
  · intro n hget
    cases n with
    | preCommit =>
      simp only [fsGet] at hget
      subst hget
      have hs1 : uninstall_one (removeOk HookName.preCommit) HookName.preCommit none =
          (none, [], true) := rfl
      constructor
      · simp [uninstall, hs1, fsGet]
      · intro e he
        simp [uninstall, hs1] at he
        have := uninstall_one_eventHook e he
        rw [this]
        simp
    | prePush =>
      simp only [fsGet] at hget
      subst hget
      have hs2 : uninstall_one (removeOk HookName.prePush) HookName.prePush none =
          (none, [], true) := rfl
      constructor
      · cases hk : (uninstall_one (removeOk HookName.preCommit) HookName.preCommit pc).2.2 with
        | false => simp [uninstall, hk, fsGet]
        | true => simp [uninstall, hk, hs2, fsGet]
      · intro e he
        cases hk : (uninstall_one (removeOk HookName.preCommit) HookName.preCommit pc).2.2 with
        | false =>
          simp [uninstall, hk] at he
          have := uninstall_one_eventHook e he
          rw [this]
          simp
        | true =>
          simp [uninstall, hk, hs2] at he
          have := uninstall_one_eventHook e he
          rw [this]
          simp
  · intro hall n c hget
    cases n with
    | preCommit =>
      simp only [fsGet] at hget
      subst hget
      refine ⟨fun hM => ?_, fun hM => ?_⟩
      · have hs1 : uninstall_one (removeOk HookName.preCommit) HookName.preCommit (some c) =
            (none, [UninstallEvent.removed HookName.preCommit], true) := by
          simp [uninstall_one, hM, hall]
        simp [uninstall, hs1, fsGet]
      · have hs1 : uninstall_one (removeOk HookName.preCommit) HookName.preCommit (some c) =
            (some c, [UninstallEvent.warnedForeign HookName.preCommit], true) := by
          simp [uninstall_one, hM]
        simp [uninstall, hs1, fsGet]
    | prePush =>
      simp only [fsGet] at hget
      subst hget
      have hk1 : (uninstall_one (removeOk HookName.preCommit) HookName.preCommit pc).2.2 =
          true := by
        cases pc with
        | none => rfl
        | some c2 =>
          by_cases h2 : strContains c2 HOOK_MARKER <;> simp [uninstall_one, h2, hall]
      refine ⟨fun hM => ?_, fun hM => ?_⟩
      · have hs2 : uninstall_one (removeOk HookName.prePush) HookName.prePush (some c) =
            (none, [UninstallEvent.removed HookName.prePush], true) := by
          simp [uninstall_one, hM, hall]
        simp [uninstall, hk1, hs2, fsGet]
      · have hs2 : uninstall_one (removeOk HookName.prePush) HookName.prePush (some c) =
            (some c, [UninstallEvent.warnedForeign HookName.prePush], true) := by
          simp [uninstall_one, hM]
        simp [uninstall, hk1, hs2, fsGet]

/-- C8 instantiated: a marked pre-commit hook is removed while an
unmarked pre-push hook is preserved with a warning. -/
theorem c8_witness :
    fsGet (uninstall fsMixed (fun _ => true)).1 HookName.preCommit = none ∧
    fsGet (uninstall fsMixed (fun _ => true)).1 HookName.prePush = some foreignHook := by
  have h := @c8_uninstall_marker_respect fsMixed (fun _ => true)
  refine ⟨((h.2.2 (fun _ => rfl) HookName.preCommit markedHook rfl).1 (by decide)).1, ?_⟩
  exact h.1 HookName.prePush foreignHook rfl (by decide)

/-- The `: .+` tail test succeeds exactly on ": " followed by a
non-newline character. -/
theorem checkRest_iff {cs : List Char} :
    checkRest cs = true ↔ ∃ c r, c ≠ '\n' ∧ cs = ':' :: ' ' :: c :: r := by
  cases cs with
  | nil => simp [checkRest]
  | cons a t =>
    cases t with
    | nil => simp [checkRest]
    | cons b t2 =>
      cases t2 with
      | nil => simp [checkRest]
      | cons c r =>
        simp only [checkRest, Bool.and_eq_true, beq_iff_eq, bne_iff_ne, List.cons.injEq]
        constructor
        · rintro ⟨⟨ha, hb⟩, hc⟩
          exact ⟨c, r, hc, ha, hb, rfl, rfl⟩
        · rintro ⟨c2, r2, hne, ha, hb, hc, hr⟩
          subst hc
          exact ⟨⟨ha, hb⟩, hne⟩

/-- Maximal munch against a class the delimiter is not in: takeWhile
keeps exactly the class prefix and dropWhile starts at the delimiter. -/
theorem takeWhile_all_append {p : Char → Bool} {w : List Char} {d : Char} {t : List Char}
    (hw : ∀ x ∈ w, p x = true) (hd : p d = false) :
    (w ++ d :: t).takeWhile p = w ∧ (w ++ d :: t).dropWhile p = d :: t := by
  induction w with
  | nil => simp [List.takeWhile_cons, List.dropWhile_cons, hd]
  | cons a w ih =>
    have ha : p a = true := hw a (List.mem_cons_self a w)
    obtain ⟨ih1, ih2⟩ := ih (fun x hx => hw x (List.mem_cons_of_mem a hx))
    simp [List.takeWhile_cons, List.dropWhile_cons, ha, ih1, ih2]

/-- The post-type matcher agrees with the spec-level grammar of the part
after the commit type. -/
theorem checkAfterType_iff {cs : List Char} :
    checkAfterType cs = true ↔ AfterTypeSpec cs := by
  unfold checkAfterType AfterTypeSpec
  rw [Bool.or_eq_true]
  apply or_congr checkRest_iff
  cases cs with
  | nil => simp
  | cons a rest =>
    constructor
    · intro h
      rw [Bool.and_eq_true] at h
      obtain ⟨ha, h2⟩ := h
      rw [beq_iff_eq] at ha
      subst ha
      rw [Bool.and_eq_true] at h2
      obtain ⟨hne, h3⟩ := h2
      cases hdw : rest.dropWhile isScopeChar with
      | nil => rw [hdw] at h3; exact absurd h3 (by simp)
      | cons b rest2 =>
        rw [hdw] at h3
        rw [Bool.and_eq_true, beq_iff_eq] at h3
        obtain ⟨hb, hcr⟩ := h3
        subst hb
        obtain ⟨c, r, hc, hr2⟩ := checkRest_iff.mp hcr
        refine ⟨rest.takeWhile isScopeChar, c, r, ?_, ?_, hc, ?_⟩
        · intro hempty
          rw [hempty] at hne
          simp at hne
        · intro x hx
          exact List.mem_takeWhile_imp hx
        · have hsplit : rest.takeWhile isScopeChar ++ rest.dropWhile isScopeChar = rest :=
            List.takeWhile_append_dropWhile isScopeChar rest
          rw [hdw, hr2] at hsplit
          rw [hsplit]
    · rintro ⟨w, c, r, hw, hall, hc, heq⟩
      rw [List.cons.injEq] at heq
      obtain ⟨ha, hrest⟩ := heq
      subst ha
      subst hrest
      obtain ⟨htw, hdw⟩ :=
        takeWhile_all_append hall (show isScopeChar ')' = false from by decide)
      rw [Bool.and_eq_true]
      refine ⟨by simp, ?_⟩
      rw [Bool.and_eq_true, htw, hdw]
      refine ⟨by simp [hw], ?_⟩
      rw [Bool.and_eq_true]
      exact ⟨by simp, checkRest_iff.mpr ⟨c, r, hc, rfl⟩⟩

/-- The compiled conventional-commit regex accepts exactly the amended
grammar. -/
theorem isConventionalL_iff {s : List Char} :
    isConventionalL s = true ↔ AmendedConventional s := by
  unfold isConventionalL AmendedConventional
  rw [List.any_eq_true]
  constructor
  · rintro ⟨t, ht, hb⟩
    rw [Bool.and_eq_true] at hb
    obtain ⟨hpre, hafter⟩ := hb
    rw [ List.isPrefixOf_iff_prefix] at hpre
    obtain ⟨u, hu⟩ := hpre
    have hdrop : s.drop t.length = u := by rw [← hu]; exact List.drop_left t u
    rw [hdrop, checkAfterType_iff] at hafter
    cases hafter with
    | inl h =>
      obtain ⟨c, r, hc, hcr⟩ := h
      exact ⟨t, ht, [], c, r, Or.inl rfl, hc, by rw [← hu, hcr]; simp⟩
    | inr h =>
      obtain ⟨w, c, r, hw, hall, hc, hcr⟩ := h
      refine ⟨t, ht, '(' :: (w ++ [')']), c, r, Or.inr ⟨w, hw, hall, rfl⟩, hc, ?_⟩
      rw [← hu, hcr]
      simp
  · rintro ⟨t, ht, mid, c, r, hmid, hc, hs⟩
    refine ⟨t, ht, ?_⟩
    rw [Bool.and_eq_true]
    have hdrop : s.drop t.length = mid ++ ':' :: ' ' :: c :: r := by
      rw [hs, List.append_assoc]
      exact List.drop_left t _
    constructor
    · rw [ List.isPrefixOf_iff_prefix]
      exact ⟨mid ++ ':' :: ' ' :: c :: r, by rw [hs, List.append_assoc]⟩
    · rw [hdrop, checkAfterType_iff]
      cases hmid with
      | inl h =>
        subst h
        exact Or.inl ⟨c, r, hc, by simp⟩
      | inr h =>
        obtain ⟨w, hw, hall, hmw⟩ := h
        subst hmw
        exact Or.inr ⟨w, c, r, hw, hall, hc, by simp⟩

/-- C2 as frozen is false: the subject "feat: \nx" satisfies the
claim's stated grammar (type "feat", no scope, ": ", non-empty remainder
"\nx"), yet the compiled regex marks it invalid, because `.` does not
match a newline. -/
theorem c2_counterexample :
    SpecConventional (String.data "feat: \nx") ∧ isConventional "feat: \nx" = false := by
  constructor
  · exact ⟨['f', 'e', 'a', 't'], by decide, [], ['\n', 'x'], Or.inl rfl, by decide, by decide⟩
  · decide

/-- C2 amended: a subject is valid for the "conventional" convention iff
it starts with a type from the closed set, an optional parenthesized
scope over [a-z0-9-], the two characters ": ", and then a remainder
whose first character exists and is not a newline; the claim's example
classifications all hold. -/
theorem c2_conventional_grammar :
    (∀ s : String, isConventional s = true ↔ AmendedConventional s.data) ∧
    isConventional "feat: add login" = true ∧
    isConventional "fix(auth): resolve token issue" = true ∧
    isConventional "added login" = false ∧
    isConventional "Fix bug" = false ∧
    isConventional "" = false :=
  ⟨fun _ => isConventionalL_iff, by decide, by decide, by decide, by decide, by decide⟩

/-- C2 amended, instantiated: the valid example satisfies the amended
grammar. -/
theorem c2_witness : AmendedConventional (String.data "feat: add login") :=
  (c2_conventional_grammar.1 "feat: add login").mp (by decide)

/-- C3: the Sensitive File Matcher returns exactly the staged paths
matching at least one pattern, in input order (a sublist of the input,
never duplicating an entry), and on the default patterns the spec's
example holds. -/
theorem c3_sensitive_matcher {staged patterns : List String} :
    (∀ f, f ∈ check_sensitive_files staged patterns ↔
      f ∈ staged ∧ ∃ p ∈ patterns, globMatch p.data f.data = true) ∧
    (check_sensitive_files staged patterns).Sublist staged ∧
    (∀ f, (check_sensitive_files staged patterns).count f ≤ staged.count f) ∧
    check_sensitive_files [".env", ".env.local", "src/main"] default_patterns =
      [".env", ".env.local"] := by
  refine ⟨?_, ?_, ?_, by decide⟩
  · intro f
    simp [check_sensitive_files, List.mem_filter, List.any_eq_true]
  · exact List.filter_sublist _
  · intro f
    exact (List.filter_sublist _).count_le f

/-- C3 instantiated: ".env" is reported, via membership in the matcher
output. -/
theorem c3_witness :
    ".env" ∈ check_sensitive_files [".env", ".env.local", "src/main"] default_patterns :=
  (c3_sensitive_matcher.1 ".env").mpr (by decide)

end GitSherpa
